import Mathlib

/-!
A shallow embedding of the retryify library (src/index.js, the current
implementation: `getOpt`, `execute`, `retryify`, `retryWrapper`/`doRetry`)
together with proofs of the specification's claims about it.

Modelling conventions:

* JS numbers used for durations (`timeout`, `factor`, `initialDelay`) are
  modelled as rationals (`ℚ`); the retry budget `retries` is a natural
  number, matching its use as a counter compared with `===`.
* The wrapped operation `context.fn` may succeed or fail differently on
  each attempt (in JS it is an arbitrary stateful function).  It is
  modelled as an oracle receiving the receiver (`fnThis`), the argument
  list (`args`) and the 0-based index of the current attempt, and
  returning `Except ε α`: `Except.error` covers both a synchronous throw
  and an asynchronous rejection, which `execute` unifies by wrapping the
  call in `try`/`await`.
* `execute` is instrumented: instead of performing effects it returns a
  `Trace` recording, in order, every invocation of the wrapped function
  (with the receiver and arguments passed to it), every message given to
  `context.log`, every backoff delay awaited, every error on which
  `context.shouldRetry` was invoked, and the final outcome.
* The `while (true)` loop of `execute` increments its local counter
  `retries` (starting at 0) once per iteration and leaves the loop when
  `retries === context.retries` holds at a failure; hence it runs at most
  `context.retries + 1` iterations.  The recursion is made structural by a
  `fuel` argument which `execute` instantiates with `context.retries`;
  the fuel-exhaustion branch is unreachable from `execute` because
  whenever the loop continues, `retries < context.retries` holds, so at
  least one unit of fuel remains.  All source checks (`retries ===
  context.retries` first, then `context.shouldRetry(err)`) appear
  literally and in source order.
-/

namespace Retryify

variable {ρ υ ε α : Type}

/-- `getOpt` from src/index.js: return `_default` if a field is `undefined`
or `null` (both modelled as `none`), otherwise the field's value. -/
def getOpt (option : Option α) (dflt : α) : α :=
  match option with
  | none => dflt
  | some v => v

/-- The caller-supplied options object passed to `retryify`.  Each
recognized field is `none` when the caller left it `undefined` (or set it
to `null`), and `some v` when the caller supplied `v`. -/
structure OptionsObj (ε : Type) where
  retries : Option Nat
  initialDelay : Option ℚ
  timeout : Option ℚ
  factor : Option ℚ
  log : Option (String → Unit)
  shouldRetry : Option (ε → Bool)

/-- The options object literal `{}` (every field undefined). -/
def emptyOptions (ε : Type) : OptionsObj ε :=
  { retries := none, initialDelay := none, timeout := none, factor := none,
    log := none, shouldRetry := none }

/-- The field assignments `options.retries = getOpt(options.retries, 3)`,
..., `options.shouldRetry = getOpt(options.shouldRetry, () => true)`
performed by `retryify` on the options object it was given: every
recognized field that is `undefined`/`null` is overwritten with its
default (`retries = 3`, `initialDelay = 0`, `timeout = 300`, `factor = 2`,
no-op `log`, always-true `shouldRetry`); a field the caller supplied keeps
its value. -/
def normalizeOptions (o : OptionsObj ε) : OptionsObj ε :=
  { retries := some (getOpt o.retries 3),
    initialDelay := some (getOpt o.initialDelay 0),
    timeout := some (getOpt o.timeout 300),
    factor := some (getOpt o.factor 2),
    log := some (getOpt o.log (fun _ => ())),
    shouldRetry := some (getOpt o.shouldRetry (fun _ => true)) }

/-- The error thrown by `retryify` when misused. -/
inductive JsError where
  | typeError (message : String)
deriving DecidableEq

/-- The argument of a call to `retryify`: either no argument at all (the
parameter then defaults to `{}`), a reference to an options object (a
JS object is mutable and aliased, so it is modelled as an address into a
store of options objects), or a function — the call-site mistake the
code guards against with `typeof options === 'function'`. -/
inductive RetryifyArg where
  | missing
  | options (addr : Nat)
  | function

/-- `retryify` from src/index.js.  The store models the JS heap of options
objects.  On a function argument it throws a `TypeError` synchronously,
before any wrapping happens.  On an options-object argument it performs
the `getOpt` default assignments *through the caller's reference* (the
store is updated at `addr`; no copy is made) and captures the resulting
normalized options for the returned `retryWrapper` closure (the second
component).  With no argument, `options = {}` allocates a fresh object
invisible to the caller, so the store is unchanged. -/
def retryify (arg : RetryifyArg) (store : Nat → OptionsObj ε) :
    Except JsError ((Nat → OptionsObj ε) × OptionsObj ε) :=
  match arg with
  | RetryifyArg.function =>
      Except.error (JsError.typeError "options object expected but was passed a function")
  | RetryifyArg.missing =>
      Except.ok (store, normalizeOptions (emptyOptions ε))
  | RetryifyArg.options addr =>
      Except.ok
        (fun a => if a = addr then normalizeOptions (store addr) else store a,
         normalizeOptions (store addr))

/-- The message built by `execute` for `context.log`:
`` `retrying function ${context.fnName} in ${delay} ms : attempts: ${attempts}` ``. -/
def retryMsg (fnName : String) (delay : ℚ) (attempts : Nat) : String :=
  "retrying function " ++ fnName ++ " in " ++ toString delay ++
    " ms : attempts: " ++ toString attempts

/-- The `context` object `doRetry` builds and `execute` consumes.  The
`log` callback is not stored: the trace records the messages that are
passed to it instead. -/
structure Context (ρ υ ε α : Type) where
  fn : ρ → List υ → Nat → Except ε α
  fnName : String
  fnThis : ρ
  args : List υ
  retries : Nat
  initialDelay : ℚ
  timeout : ℚ
  factor : ℚ
  shouldRetry : ε → Bool

/-- The observable behaviour of one call to `execute`: the initial-delay
wait (if any), each invocation of the wrapped function together with the
value of the loop counter `retries` and the receiver/arguments at that
invocation, each message passed to `context.log`, each backoff delay
awaited, each error `context.shouldRetry` was invoked on, and the final
outcome delivered to the caller. -/
structure Trace (ρ υ ε α : Type) where
  initialWait : Option ℚ := none
  calls : List (Nat × ρ × List υ)
  logs : List String
  delays : List ℚ
  predChecks : List ε
  outcome : Except ε α

/-- The `while (true)` loop of `execute`, entered with loop counter
`retries` and enough `fuel` for the remaining iterations (`execute` passes
`fuel = context.retries`, and the loop body runs `retries` from 0 up to at
most `context.retries`, so `fuel = context.retries - retries` throughout
and the fuel-exhaustion branch below is never reached).  Each iteration:
invoke the function; on success return its result; on error `err`, if
`retries === context.retries` rethrow `err`, else if `!shouldRetry(err)`
rethrow `err`, else log `retrying function ... in <delay> ms : attempts:
<retries + 1>` with `delay = timeout * factor ^ retries`, await the delay,
increment `retries` and continue. -/
def executeFrom (ctx : Context ρ υ ε α) (fuel retries : Nat) : Trace ρ υ ε α :=
  match ctx.fn ctx.fnThis ctx.args retries with
  | Except.ok v =>
      { calls := [(retries, ctx.fnThis, ctx.args)], logs := [], delays := [],
        predChecks := [], outcome := Except.ok v }
  | Except.error err =>
      if retries = ctx.retries then
        { calls := [(retries, ctx.fnThis, ctx.args)], logs := [], delays := [],
          predChecks := [], outcome := Except.error err }
      else if ctx.shouldRetry err then
        match fuel with
        | 0 =>
            { calls := [(retries, ctx.fnThis, ctx.args)], logs := [], delays := [],
              predChecks := [err], outcome := Except.error err }
        | fuel' + 1 =>
            let delay : ℚ := ctx.timeout * ctx.factor ^ retries
            let msg : String := retryMsg ctx.fnName delay (retries + 1)
            let rest := executeFrom ctx fuel' (retries + 1)
            { calls := (retries, ctx.fnThis, ctx.args) :: rest.calls,
              logs := msg :: rest.logs,
              delays := delay :: rest.delays,
              predChecks := err :: rest.predChecks,
              outcome := rest.outcome }
      else
        { calls := [(retries, ctx.fnThis, ctx.args)], logs := [], delays := [],
          predChecks := [err], outcome := Except.error err }

/-- `execute` from src/index.js: `let retries = 0`, the optional initial
delay (`if (context.initialDelay !== 0) await ...`), then the retry loop. -/
def execute (ctx : Context ρ υ ε α) : Trace ρ υ ε α :=
  { executeFrom ctx ctx.retries 0 with
    initialWait := if ctx.initialDelay ≠ 0 then some ctx.initialDelay else none }

/-- A JS function value as seen by `doRetry`: its `name` property (the
empty string for an anonymous function) and its behaviour. -/
structure JsFun (ρ υ ε α : Type) where
  name : String
  impl : ρ → List υ → Nat → Except ε α

/-- The per-wrapper configuration captured by `retryWrapper` (after the
`getOpt` merges of inner options over outer options). -/
structure WrapConfig (ε : Type) where
  retries : Nat
  initialDelay : ℚ
  timeout : ℚ
  factor : ℚ
  shouldRetry : ε → Bool

/-- `doRetry` from src/index.js: the wrapper returned in place of `fn`.
Called with a receiver (`this`) and arguments, it builds the context —
`fnName: fn.name || '<Anonymous>'` (a JS `||` on the name string, which is
falsy exactly when empty), the captured `fnThis` and `args`, and the
configuration — and hands it to `execute`. -/
def doRetry (cfg : WrapConfig ε) (fn : JsFun ρ υ ε α) (fnThis : ρ)
    (args : List υ) : Trace ρ υ ε α :=
  execute
    { fn := fn.impl,
      fnName := if fn.name = "" then "<Anonymous>" else fn.name,
      fnThis := fnThis,
      args := args,
      retries := cfg.retries,
      initialDelay := cfg.initialDelay,
      timeout := cfg.timeout,
      factor := cfg.factor,
      shouldRetry := cfg.shouldRetry }

/-! Concrete instances used to evaluate the model on small inputs. -/

/-- An operation that fails on every attempt (the error records the
attempt index), wrapped with `retries = 2` and an always-true
`shouldRetry`. -/
def ctxC1 : Context Unit Unit Nat Nat :=
  { fn := fun _ _ n => Except.error n, fnName := "alwaysFails", fnThis := (),
    args := [], retries := 2, initialDelay := 0, timeout := 300, factor := 2,
    shouldRetry := fun _ => true }

/-- An always-failing retryable operation with `retries = 3`,
`timeout = 5` and `factor = 3/2` (the spec's concrete backoff scenario). -/
def ctxC2 : Context Unit Unit Nat Nat :=
  { fn := fun _ _ n => Except.error n, fnName := "alwaysFails", fnThis := (),
    args := [], retries := 3, initialDelay := 0, timeout := 5, factor := 3 / 2,
    shouldRetry := fun _ => true }

/-- An always-failing operation whose second failure (attempt index 1) is
rejected by `shouldRetry` although `retries = 5` attempts remain. -/
def ctxC3 : Context Unit Unit Nat Nat :=
  { fn := fun _ _ n => Except.error n, fnName := "alwaysFails", fnThis := (),
    args := [], retries := 5, initialDelay := 0, timeout := 300, factor := 2,
    shouldRetry := fun n => n == 0 }

/-- A failing operation wrapped with `retries = 0` and a `shouldRetry`
that always answers `false`. -/
def ctxC4 : Context Unit Unit Nat Nat :=
  { fn := fun _ _ n => Except.error n, fnName := "failsOnce", fnThis := (),
    args := [], retries := 0, initialDelay := 0, timeout := 300, factor := 2,
    shouldRetry := fun _ => false }

/-- A wrapper configuration with `retries = 3`. -/
def cfgC5 : WrapConfig Nat :=
  { retries := 3, initialDelay := 0, timeout := 300, factor := 2,
    shouldRetry := fun _ => true }

/-- An anonymous function (empty `name`) that fails on attempts 0 and 1
and succeeds with 42 on attempt 2. -/
def fnC5 : JsFun Unit Unit Nat Nat :=
  { name := "",
    impl := fun _ _ n => if n < 2 then Except.error n else Except.ok 42 }

/-- An operation that always throws an error whose message is `Fail!`,
wrapped with `retries = 2`. -/
def ctxC6 : Context Unit Unit String Nat :=
  { fn := fun _ _ _ => Except.error "Fail!", fnName := "alwaysThrows",
    fnThis := (), args := [], retries := 2, initialDelay := 0, timeout := 300,
    factor := 2, shouldRetry := fun _ => true }

/-- An always-failing retryable operation with `retries = 2`, used to
exhibit a concrete invocation of the retry loop. -/
def ctxC8 : Context Unit Unit Nat Nat :=
  { fn := fun _ _ n => Except.error n, fnName := "alwaysFails", fnThis := (),
    args := [], retries := 2, initialDelay := 0, timeout := 300, factor := 2,
    shouldRetry := fun _ => true }

/-! ### Unfolding lemmas for the four branches of the loop body -/

theorem executeFrom_ok (ctx : Context ρ υ ε α) (fuel retries : Nat) (v : α)
    (h : ctx.fn ctx.fnThis ctx.args retries = Except.ok v) :
    executeFrom ctx fuel retries =
      { calls := [(retries, ctx.fnThis, ctx.args)], logs := [], delays := [],
        predChecks := [], outcome := Except.ok v } := by
  unfold executeFrom
  rw [h]

theorem executeFrom_last (ctx : Context ρ υ ε α) (fuel retries : Nat) (err : ε)
    (h : ctx.fn ctx.fnThis ctx.args retries = Except.error err)
    (heq : retries = ctx.retries) :
    executeFrom ctx fuel retries =
      { calls := [(retries, ctx.fnThis, ctx.args)], logs := [], delays := [],
        predChecks := [], outcome := Except.error err } := by
  unfold executeFrom
  rw [h]
  simp [heq]

theorem executeFrom_noRetry (ctx : Context ρ υ ε α) (fuel retries : Nat) (err : ε)
    (h : ctx.fn ctx.fnThis ctx.args retries = Except.error err)
    (hne : retries ≠ ctx.retries)
    (hs : ctx.shouldRetry err = false) :
    executeFrom ctx fuel retries =
      { calls := [(retries, ctx.fnThis, ctx.args)], logs := [], delays := [],
        predChecks := [err], outcome := Except.error err } := by
  unfold executeFrom
  rw [h]
  simp [hne, hs]

theorem executeFrom_fuelZero (ctx : Context ρ υ ε α) (retries : Nat) (err : ε)
    (h : ctx.fn ctx.fnThis ctx.args retries = Except.error err)
    (hne : retries ≠ ctx.retries)
    (hs : ctx.shouldRetry err = true) :
    executeFrom ctx 0 retries =
      { calls := [(retries, ctx.fnThis, ctx.args)], logs := [], delays := [],
        predChecks := [err], outcome := Except.error err } := by
  unfold executeFrom
  rw [h]
  simp [hne, hs]

theorem executeFrom_step (ctx : Context ρ υ ε α) (fuel retries : Nat) (err : ε)
    (h : ctx.fn ctx.fnThis ctx.args retries = Except.error err)
    (hne : retries ≠ ctx.retries)
    (hs : ctx.shouldRetry err = true) :
    executeFrom ctx (fuel + 1) retries =
      { calls := (retries, ctx.fnThis, ctx.args) ::
          (executeFrom ctx fuel (retries + 1)).calls,
        logs := retryMsg ctx.fnName (ctx.timeout * ctx.factor ^ retries)
            (retries + 1) :: (executeFrom ctx fuel (retries + 1)).logs,
        delays := (ctx.timeout * ctx.factor ^ retries) ::
          (executeFrom ctx fuel (retries + 1)).delays,
        predChecks := err :: (executeFrom ctx fuel (retries + 1)).predChecks,
        outcome := (executeFrom ctx fuel (retries + 1)).outcome } := by
  conv_lhs => rw [executeFrom]
  rw [h]
  simp [hne, hs]

/-! ### Projections of `execute` onto the loop -/

theorem execute_calls (ctx : Context ρ υ ε α) :
    (execute ctx).calls = (executeFrom ctx ctx.retries 0).calls := rfl

theorem execute_logs (ctx : Context ρ υ ε α) :
    (execute ctx).logs = (executeFrom ctx ctx.retries 0).logs := rfl

theorem execute_delays (ctx : Context ρ υ ε α) :
    (execute ctx).delays = (executeFrom ctx ctx.retries 0).delays := rfl

theorem execute_predChecks (ctx : Context ρ υ ε α) :
    (execute ctx).predChecks = (executeFrom ctx ctx.retries 0).predChecks := rfl

theorem execute_outcome (ctx : Context ρ υ ε α) :
    (execute ctx).outcome = (executeFrom ctx ctx.retries 0).outcome := rfl

/-! ### The loop on an operation that fails on every attempt -/

/-- If the wrapped function fails on every attempt and every failure
before the budget boundary is retryable, the loop started at counter
value `retries` with the remaining budget as fuel performs one invocation
per counter value up to `ctx.retries`, logs/waits once per retry taken,
invokes the predicate exactly on the pre-boundary failures, and surfaces
the failure of the attempt at counter value `ctx.retries`. -/
theorem executeFrom_all_fail (ctx : Context ρ υ ε α) (e : Nat → ε)
    (hfail : ∀ n, ctx.fn ctx.fnThis ctx.args n = Except.error (e n)) :
    ∀ fuel retries, retries + fuel = ctx.retries →
      (∀ i, retries ≤ i → i < ctx.retries → ctx.shouldRetry (e i) = true) →
      executeFrom ctx fuel retries =
        { calls := (List.range' retries (fuel + 1)).map
            (fun i => (i, ctx.fnThis, ctx.args)),
          logs := (List.range' retries fuel).map
            (fun i => retryMsg ctx.fnName (ctx.timeout * ctx.factor ^ i) (i + 1)),
          delays := (List.range' retries fuel).map
            (fun i => ctx.timeout * ctx.factor ^ i),
          predChecks := (List.range' retries fuel).map e,
          outcome := Except.error (e ctx.retries) } := by
  intro fuel
  induction fuel with
  | zero =>
      intro retries hsum hpre
      have heq : retries = ctx.retries := by omega
      rw [executeFrom_last ctx 0 retries (e retries) (hfail retries) heq]
      simp [heq]
  | succ fuel ih =>
      intro retries hsum hpre
      have hne : retries ≠ ctx.retries := by omega
      rw [executeFrom_step ctx fuel retries (e retries) (hfail retries) hne
        (hpre retries le_rfl (by omega))]
      rw [ih (retries + 1) (by omega) (fun i h1 h2 => hpre i (by omega) h2)]
      simp [List.range'_succ]

/-- If, starting at counter value `retries`, the next `j` attempts fail
with retryable failures and the attempt after them succeeds with `v`
(within the budget, i.e. `j ≤ fuel` where `fuel` is the remaining
budget), the loop resolves with `v` after exactly `j + 1` invocations and
exactly `j` log messages, each of the source's form with the
pre-increment counter as exponent and counter-plus-one as the reported
attempt count. -/
theorem executeFrom_success (ctx : Context ρ υ ε α) (e : Nat → ε) (v : α) :
    ∀ j fuel retries, retries + fuel = ctx.retries → j ≤ fuel →
      (∀ i, retries ≤ i → i < retries + j →
        ctx.fn ctx.fnThis ctx.args i = Except.error (e i)) →
      (∀ i, retries ≤ i → i < retries + j → ctx.shouldRetry (e i) = true) →
      ctx.fn ctx.fnThis ctx.args (retries + j) = Except.ok v →
      executeFrom ctx fuel retries =
        { calls := (List.range' retries (j + 1)).map
            (fun i => (i, ctx.fnThis, ctx.args)),
          logs := (List.range' retries j).map
            (fun i => retryMsg ctx.fnName (ctx.timeout * ctx.factor ^ i) (i + 1)),
          delays := (List.range' retries j).map
            (fun i => ctx.timeout * ctx.factor ^ i),
          predChecks := (List.range' retries j).map e,
          outcome := Except.ok v } := by
  intro j
  induction j with
  | zero =>
      intro fuel retries hsum hj hfailpre hretrypre hok
      rw [executeFrom_ok ctx fuel retries v (by simpa using hok)]
      simp
  | succ j ih =>
      intro fuel retries hsum hj hfailpre hretrypre hok
      have h0 : ctx.fn ctx.fnThis ctx.args retries = Except.error (e retries) :=
        hfailpre retries le_rfl (by omega)
      have hs0 : ctx.shouldRetry (e retries) = true :=
        hretrypre retries le_rfl (by omega)
      have hne : retries ≠ ctx.retries := by omega
      cases fuel with
      | zero => omega
      | succ fuel =>
          rw [executeFrom_step ctx fuel retries (e retries) h0 hne hs0]
          have hok' : ctx.fn ctx.fnThis ctx.args (retries + 1 + j) = Except.ok v := by
            have harith : retries + 1 + j = retries + (j + 1) := by omega
            rw [harith]
            exact hok
          rw [ih fuel (retries + 1) (by omega) (by omega)
            (fun i h1 h2 => hfailpre i (by omega) (by omega))
            (fun i h1 h2 => hretrypre i (by omega) (by omega)) hok']
          simp [List.range'_succ]

/-- If, starting at counter value `retries`, the next `j` attempts fail
with retryable failures and the attempt after them fails with a failure
the predicate rejects — all strictly before the budget boundary — the
loop stops right there: `j + 1` invocations, `j` logs/waits, the
predicate consulted on every one of the `j + 1` failures, and that last
failure surfaced. -/
theorem executeFrom_stopPred (ctx : Context ρ υ ε α) (e : Nat → ε) :
    ∀ j fuel retries, retries + fuel = ctx.retries →
      retries + j < ctx.retries →
      (∀ i, retries ≤ i → i ≤ retries + j →
        ctx.fn ctx.fnThis ctx.args i = Except.error (e i)) →
      (∀ i, retries ≤ i → i < retries + j → ctx.shouldRetry (e i) = true) →
      ctx.shouldRetry (e (retries + j)) = false →
      executeFrom ctx fuel retries =
        { calls := (List.range' retries (j + 1)).map
            (fun i => (i, ctx.fnThis, ctx.args)),
          logs := (List.range' retries j).map
            (fun i => retryMsg ctx.fnName (ctx.timeout * ctx.factor ^ i) (i + 1)),
          delays := (List.range' retries j).map
            (fun i => ctx.timeout * ctx.factor ^ i),
          predChecks := (List.range' retries (j + 1)).map e,
          outcome := Except.error (e (retries + j)) } := by
  intro j
  induction j with
  | zero =>
      intro fuel retries hsum hlt hfailpre hretrypre hstop
      have hne : retries ≠ ctx.retries := by omega
      rw [executeFrom_noRetry ctx fuel retries (e retries)
        (hfailpre retries le_rfl (by omega)) hne (by simpa using hstop)]
      simp
  | succ j ih =>
      intro fuel retries hsum hlt hfailpre hretrypre hstop
      have h0 : ctx.fn ctx.fnThis ctx.args retries = Except.error (e retries) :=
        hfailpre retries le_rfl (by omega)
      have hs0 : ctx.shouldRetry (e retries) = true :=
        hretrypre retries le_rfl (by omega)
      have hne : retries ≠ ctx.retries := by omega
      cases fuel with
      | zero => omega
      | succ fuel =>
          rw [executeFrom_step ctx fuel retries (e retries) h0 hne hs0]
          have hstop' : ctx.shouldRetry (e (retries + 1 + j)) = false := by
            have harith : retries + 1 + j = retries + (j + 1) := by omega
            rw [harith]
            exact hstop
          rw [ih fuel (retries + 1) (by omega) (by omega)
            (fun i h1 h2 => hfailpre i (by omega) (by omega))
            (fun i h1 h2 => hretrypre i (by omega) (by omega)) hstop']
          have harith : retries + 1 + j = retries + (j + 1) := by omega
          simp [List.range'_succ, harith]

/-- Whatever the wrapped function and predicate do, the `k`-th backoff
delay awaited by the loop (0-indexed from counter value `retries`) is
`timeout * factor ^ (retries + k)`: the exponent is the pre-increment
counter of the iteration that scheduled it. -/
theorem executeFrom_delay_get (ctx : Context ρ υ ε α) :
    ∀ fuel retries k, k < (executeFrom ctx fuel retries).delays.length →
      (executeFrom ctx fuel retries).delays.getD k 0 =
        ctx.timeout * ctx.factor ^ (retries + k) := by
  intro fuel
  induction fuel with
  | zero =>
      intro retries k hk
      exfalso
      cases hfn : ctx.fn ctx.fnThis ctx.args retries with
      | ok v => rw [executeFrom_ok ctx 0 retries v hfn] at hk; simp at hk
      | error e0 =>
          by_cases heq : retries = ctx.retries
          · rw [executeFrom_last ctx 0 retries e0 hfn heq] at hk; simp at hk
          · cases hs : ctx.shouldRetry e0 with
            | false =>
                rw [executeFrom_noRetry ctx 0 retries e0 hfn heq hs] at hk
                simp at hk
            | true =>
                rw [executeFrom_fuelZero ctx retries e0 hfn heq hs] at hk
                simp at hk
  | succ fuel ih =>
      intro retries k hk
      cases hfn : ctx.fn ctx.fnThis ctx.args retries with
      | ok v =>
          exfalso
          rw [executeFrom_ok ctx (fuel + 1) retries v hfn] at hk
          simp at hk
      | error e0 =>
          by_cases heq : retries = ctx.retries
          · exfalso
            rw [executeFrom_last ctx (fuel + 1) retries e0 hfn heq] at hk
            simp at hk
          · cases hs : ctx.shouldRetry e0 with
            | false =>
                exfalso
                rw [executeFrom_noRetry ctx (fuel + 1) retries e0 hfn heq hs] at hk
                simp at hk
            | true =>
                rw [executeFrom_step ctx fuel retries e0 hfn heq hs] at hk ⊢
                cases k with
                | zero => simp
                | succ k =>
                    have hk' : k < (executeFrom ctx fuel (retries + 1)).delays.length := by
                      simpa using hk
                    have harith : retries + 1 + k = retries + (k + 1) := by omega
                    simpa [harith] using ih (retries + 1) k hk'

/-- An error outcome of the loop is always a value the wrapped function
itself raised, on one of the attempts actually made — never a wrapped or
translated failure. -/
theorem executeFrom_error_origin (ctx : Context ρ υ ε α) :
    ∀ fuel retries err,
      (executeFrom ctx fuel retries).outcome = Except.error err →
      ∃ n, retries ≤ n ∧ n ≤ retries + fuel ∧
        ctx.fn ctx.fnThis ctx.args n = Except.error err := by
  intro fuel
  induction fuel with
  | zero =>
      intro retries err h
      cases hfn : ctx.fn ctx.fnThis ctx.args retries with
      | ok v => rw [executeFrom_ok ctx 0 retries v hfn] at h; simp at h
      | error e0 =>
          have he : e0 = err := by
            by_cases heq : retries = ctx.retries
            · rw [executeFrom_last ctx 0 retries e0 hfn heq] at h
              simpa using h
            · cases hs : ctx.shouldRetry e0 with
              | false =>
                  rw [executeFrom_noRetry ctx 0 retries e0 hfn heq hs] at h
                  simpa using h
              | true =>
                  rw [executeFrom_fuelZero ctx retries e0 hfn heq hs] at h
                  simpa using h
          exact ⟨retries, le_rfl, by omega, by rw [hfn, he]⟩
  | succ fuel ih =>
      intro retries err h
      cases hfn : ctx.fn ctx.fnThis ctx.args retries with
      | ok v => rw [executeFrom_ok ctx (fuel + 1) retries v hfn] at h; simp at h
      | error e0 =>
          by_cases heq : retries = ctx.retries
          · have he : e0 = err := by
              rw [executeFrom_last ctx (fuel + 1) retries e0 hfn heq] at h
              simpa using h
            exact ⟨retries, le_rfl, by omega, by rw [hfn, he]⟩
          · cases hs : ctx.shouldRetry e0 with
            | false =>
                have he : e0 = err := by
                  rw [executeFrom_noRetry ctx (fuel + 1) retries e0 hfn heq hs] at h
                  simpa using h
                exact ⟨retries, le_rfl, by omega, by rw [hfn, he]⟩
            | true =>
                rw [executeFrom_step ctx fuel retries e0 hfn heq hs] at h
                have h' : (executeFrom ctx fuel (retries + 1)).outcome =
                    Except.error err := by simpa using h
                obtain ⟨n, hn1, hn2, hn3⟩ := ih (retries + 1) err h'
                exact ⟨n, by omega, by omega, hn3⟩

/-- Every invocation the loop makes passes the wrapped function exactly
the receiver and argument list held in the context: the call records,
stripped of the counter, are a constant list. -/
theorem executeFrom_calls_frame (ctx : Context ρ υ ε α) :
    ∀ fuel retries,
      (executeFrom ctx fuel retries).calls.map Prod.snd =
        List.replicate (executeFrom ctx fuel retries).calls.length
          (ctx.fnThis, ctx.args) := by
  intro fuel
  induction fuel with
  | zero =>
      intro retries
      cases hfn : ctx.fn ctx.fnThis ctx.args retries with
      | ok v => rw [executeFrom_ok ctx 0 retries v hfn]; simp
      | error e0 =>
          by_cases heq : retries = ctx.retries
          · rw [executeFrom_last ctx 0 retries e0 hfn heq]; simp
          · cases hs : ctx.shouldRetry e0 with
            | false => rw [executeFrom_noRetry ctx 0 retries e0 hfn heq hs]; simp
            | true => rw [executeFrom_fuelZero ctx retries e0 hfn heq hs]; simp
  | succ fuel ih =>
      intro retries
      cases hfn : ctx.fn ctx.fnThis ctx.args retries with
      | ok v => rw [executeFrom_ok ctx (fuel + 1) retries v hfn]; simp
      | error e0 =>
          by_cases heq : retries = ctx.retries
          · rw [executeFrom_last ctx (fuel + 1) retries e0 hfn heq]; simp
          · cases hs : ctx.shouldRetry e0 with
            | false => rw [executeFrom_noRetry ctx (fuel + 1) retries e0 hfn heq hs]; simp
            | true =>
                rw [executeFrom_step ctx fuel retries e0 hfn heq hs]
                simp [ih (retries + 1), List.replicate_succ]

/-- The loop counter recorded at any invocation never exceeds the counter
at entry plus the remaining fuel. -/
theorem executeFrom_calls_bound (ctx : Context ρ υ ε α) :
    ∀ fuel retries c, c ∈ (executeFrom ctx fuel retries).calls →
      c.1 ≤ retries + fuel := by
  intro fuel
  induction fuel with
  | zero =>
      intro retries c hc
      cases hfn : ctx.fn ctx.fnThis ctx.args retries with
      | ok v =>
          rw [executeFrom_ok ctx 0 retries v hfn] at hc
          simp at hc
          subst hc
          simp
      | error e0 =>
          have hc' : c = (retries, ctx.fnThis, ctx.args) := by
            by_cases heq : retries = ctx.retries
            · rw [executeFrom_last ctx 0 retries e0 hfn heq] at hc
              simpa using hc
            · cases hs : ctx.shouldRetry e0 with
              | false =>
                  rw [executeFrom_noRetry ctx 0 retries e0 hfn heq hs] at hc
                  simpa using hc
              | true =>
                  rw [executeFrom_fuelZero ctx retries e0 hfn heq hs] at hc
                  simpa using hc
          subst hc'
          simp
  | succ fuel ih =>
      intro retries c hc
      cases hfn : ctx.fn ctx.fnThis ctx.args retries with
      | ok v =>
          rw [executeFrom_ok ctx (fuel + 1) retries v hfn] at hc
          simp at hc
          subst hc
          simp
      | error e0 =>
          by_cases heq : retries = ctx.retries
          · rw [executeFrom_last ctx (fuel + 1) retries e0 hfn heq] at hc
            simp at hc
            subst hc
            simp
          · cases hs : ctx.shouldRetry e0 with
            | false =>
                rw [executeFrom_noRetry ctx (fuel + 1) retries e0 hfn heq hs] at hc
                simp at hc
                subst hc
                simp
            | true =>
                rw [executeFrom_step ctx fuel retries e0 hfn heq hs] at hc
                rcases List.mem_cons.mp (by simpa using hc) with h1 | h1
                · subst h1
                  simp
                · have := ih (retries + 1) c h1
                  omega

/-- On an operation that succeeds on its `j+1`-th attempt after `j`
retryable failures (within budget: `j ≤ maxRetries`), `execute` resolves
with the operation's result and logs exactly `j` messages, the `i`-th
being `retrying function <fnName> in <timeout * factor ^ i> ms :
attempts: <i + 1>`. -/
theorem execute_success_logs (ctx : Context ρ υ ε α) (e : Nat → ε) (v : α)
    (j : Nat) (hj : j ≤ ctx.retries)
    (hfail : ∀ i, i < j → ctx.fn ctx.fnThis ctx.args i = Except.error (e i))
    (hretry : ∀ i, i < j → ctx.shouldRetry (e i) = true)
    (hok : ctx.fn ctx.fnThis ctx.args j = Except.ok v) :
    (execute ctx).outcome = Except.ok v ∧
    (execute ctx).logs.length = j ∧
    (execute ctx).logs = (List.range j).map (fun i =>
      retryMsg ctx.fnName (ctx.timeout * ctx.factor ^ i) (i + 1)) := by
  have h := executeFrom_success ctx e v j ctx.retries 0 (by omega) hj
    (fun i h1 h2 => hfail i (by omega)) (fun i h1 h2 => hretry i (by omega))
    (by simpa using hok)
  rw [execute_outcome, execute_logs, h]
  exact ⟨by simp, by simp, by simp [List.range_eq_range']⟩

/-! ### The claims -/

/-- Claim C1: for every configuration with `maxRetries = r` and every
wrapped operation that fails on every attempt with a failure
`shouldRetry` accepts, the wrapped call invokes the operation exactly
`r + 1` times, and the failure surfaced to the caller is the failure
raised by the last (`r + 1`-th) attempt. -/
theorem execute_always_fail_retryable (ctx : Context ρ υ ε α) (e : Nat → ε)
    (hfail : ∀ n, ctx.fn ctx.fnThis ctx.args n = Except.error (e n))
    (hretry : ∀ n, ctx.shouldRetry (e n) = true) :
    (execute ctx).calls.length = ctx.retries + 1 ∧
    (execute ctx).outcome = Except.error (e ctx.retries) := by
  have h := executeFrom_all_fail ctx e hfail ctx.retries 0 (by omega)
    (fun i _ _ => hretry i)
  rw [execute_calls, execute_outcome, h]
  simp

/-- Witness for C1: with `retries = 2` and an always-failing retryable
operation, 3 invocations happen and the error of attempt index 2 is
surfaced. -/
theorem execute_always_fail_retryable_witness :
    (execute ctxC1).calls.length = 2 + 1 ∧
    (execute ctxC1).outcome = Except.error 2 :=
  execute_always_fail_retryable ctxC1 (fun n => n) (fun _ => rfl) (fun _ => rfl)

/-- Claim C2: with `baseTimeout = t` and `factor = f`, the backoff delay
before retry number `k` (1-indexed) is `t * f ^ (k - 1)`: delays for
retries 1, 2, 3, ... are `t`, `t * f`, `t * f ^ 2`, ... (here 0-indexed:
the `k`-th delay is `t * f ^ k`). -/
theorem execute_delay_formula (ctx : Context ρ υ ε α) (k : Nat)
    (hk : k < (execute ctx).delays.length) :
    (execute ctx).delays.getD k 0 = ctx.timeout * ctx.factor ^ k := by
  have h := executeFrom_delay_get ctx ctx.retries 0 k
    (by rw [← execute_delays]; exact hk)
  rw [execute_delays]
  simpa using h

/-- Witness for C2: with `timeout = 5`, `factor = 3/2`, the delay before
the second retry is `5 * (3/2) ^ 1`. -/
theorem execute_delay_formula_witness :
    (execute ctxC2).delays.getD 1 0 = ctxC2.timeout * ctxC2.factor ^ 1 :=
  execute_delay_formula ctxC2 1 (by decide)

/-- Claim C3: if an attempt fails with an error `shouldRetry` rejects
while the attempt counter is still below `maxRetries`, that error is
propagated immediately and no further attempt occurs — and the predicate
is consulted on every failure before the budget is exhausted, not only
the first. -/
theorem execute_nonretryable_stops (ctx : Context ρ υ ε α) (e : Nat → ε)
    (m : Nat) (hm : m < ctx.retries)
    (hfail : ∀ i, i ≤ m → ctx.fn ctx.fnThis ctx.args i = Except.error (e i))
    (hpre : ∀ i, i < m → ctx.shouldRetry (e i) = true)
    (hstop : ctx.shouldRetry (e m) = false) :
    (execute ctx).calls.length = m + 1 ∧
    (execute ctx).outcome = Except.error (e m) ∧
    (execute ctx).predChecks = (List.range (m + 1)).map e := by
  have h := executeFrom_stopPred ctx e m ctx.retries 0 (by omega) (by omega)
    (fun i _ h2 => hfail i (by omega)) (fun i _ h2 => hpre i (by omega))
    (by simpa using hstop)
  rw [execute_calls, execute_outcome, execute_predChecks, h]
  exact ⟨by simp, by simp, by simp [List.range_eq_range']⟩

/-- Witness for C3: with `retries = 5`, a first retryable failure and a
second failure the predicate rejects, exactly 2 invocations happen, the
second failure is surfaced, and the predicate was consulted on both. -/
theorem execute_nonretryable_stops_witness :
    (execute ctxC3).calls.length = 1 + 1 ∧
    (execute ctxC3).outcome = Except.error 1 ∧
    (execute ctxC3).predChecks = (List.range (1 + 1)).map (fun n => n) :=
  execute_nonretryable_stops ctxC3 (fun n => n) 1 (by decide)
    (fun i _ => rfl)
    (fun i hi => by
      have h0 : i = 0 := by omega
      subst h0
      rfl)
    rfl

/-- Claim C4: a failure occurring when the counter equals `maxRetries` is
propagated as the final failure without `shouldRetry` being invoked on it
(the budget check precedes the predicate check); with `maxRetries = 0`
the operation runs exactly once and its failure is propagated regardless
of `shouldRetry`. -/
theorem execute_budget_precedes_predicate (ctx : Context ρ υ ε α) (e : Nat → ε)
    (hfail : ∀ n, ctx.fn ctx.fnThis ctx.args n = Except.error (e n))
    (hpre : ∀ i, i < ctx.retries → ctx.shouldRetry (e i) = true) :
    (execute ctx).calls.length = ctx.retries + 1 ∧
    (execute ctx).outcome = Except.error (e ctx.retries) ∧
    (execute ctx).predChecks = (List.range ctx.retries).map e := by
  have h := executeFrom_all_fail ctx e hfail ctx.retries 0 (by omega)
    (fun i _ h2 => hpre i h2)
  rw [execute_calls, execute_outcome, execute_predChecks, h]
  exact ⟨by simp, by simp, by simp [List.range_eq_range']⟩

/-- Witness for C4: with `retries = 0` and a `shouldRetry` that always
answers `false`, one invocation happens, its failure is surfaced, and
the predicate is never consulted. -/
theorem execute_budget_precedes_predicate_witness :
    (execute ctxC4).calls.length = 0 + 1 ∧
    (execute ctxC4).outcome = Except.error 0 ∧
    (execute ctxC4).predChecks = (List.range 0).map (fun n => n) :=
  execute_budget_precedes_predicate ctxC4 (fun n => n) (fun _ => rfl)
    (fun i hi => by simp [ctxC4] at hi)

/-- Claim C5: the log callback fires exactly once per retry actually
taken and never on success or on the terminal failure: a call whose
operation succeeds on its `j + 1`-th attempt (`j + 1 ≤ maxRetries + 1`)
resolves with the operation's result and produces exactly `j` log
messages, each of the form `retrying function <name> in <delay> ms :
attempts: <attemptCount + 1>`, where `<name>` falls back to
`<Anonymous>` when the wrapped function has no name. -/
theorem doRetry_success_logs (cfg : WrapConfig ε) (fn : JsFun ρ υ ε α)
    (fnThis : ρ) (args : List υ) (e : Nat → ε) (v : α) (j : Nat)
    (hj : j ≤ cfg.retries)
    (hfail : ∀ i, i < j → fn.impl fnThis args i = Except.error (e i))
    (hretry : ∀ i, i < j → cfg.shouldRetry (e i) = true)
    (hok : fn.impl fnThis args j = Except.ok v) :
    (doRetry cfg fn fnThis args).outcome = Except.ok v ∧
    (doRetry cfg fn fnThis args).logs.length = j ∧
    (doRetry cfg fn fnThis args).logs = (List.range j).map (fun i =>
      retryMsg (if fn.name = "" then "<Anonymous>" else fn.name)
        (cfg.timeout * cfg.factor ^ i) (i + 1)) :=
  execute_success_logs
    { fn := fn.impl,
      fnName := if fn.name = "" then "<Anonymous>" else fn.name,
      fnThis := fnThis, args := args, retries := cfg.retries,
      initialDelay := cfg.initialDelay, timeout := cfg.timeout,
      factor := cfg.factor, shouldRetry := cfg.shouldRetry }
    e v j hj hfail hretry hok

/-- Witness for C5: an anonymous function failing twice then returning 42
with `retries = 3` resolves to 42 with exactly the two expected log
messages under the `<Anonymous>` fallback name. -/
theorem doRetry_success_logs_witness :
    (doRetry cfgC5 fnC5 () []).outcome = Except.ok 42 ∧
    (doRetry cfgC5 fnC5 () []).logs.length = 2 ∧
    (doRetry cfgC5 fnC5 () []).logs = (List.range 2).map (fun i =>
      retryMsg (if fnC5.name = "" then "<Anonymous>" else fnC5.name)
        (cfgC5.timeout * cfgC5.factor ^ i) (i + 1)) :=
  doRetry_success_logs cfgC5 fnC5 () [] (fun n => n) 42 2 (by decide)
    (fun i hi => by simp [fnC5, hi]) (fun i _ => rfl) rfl

/-- Claim C6: every terminal failure is surfaced as the very same failure
value the operation raised on one of its attempts — no wrapping or
translation, identity and message preserved exactly. -/
theorem execute_error_identity (ctx : Context ρ υ ε α) (err : ε)
    (h : (execute ctx).outcome = Except.error err) :
    ∃ n, n ≤ ctx.retries ∧ ctx.fn ctx.fnThis ctx.args n = Except.error err := by
  rw [execute_outcome] at h
  obtain ⟨n, hn1, hn2, hn3⟩ := executeFrom_error_origin ctx ctx.retries 0 err h
  exact ⟨n, by omega, hn3⟩

/-- Witness for C6: with `retries = 2` and an operation always throwing
an error with message `Fail!`, the surfaced failure is exactly a raised
`Fail!` error. -/
theorem execute_error_identity_witness :
    ∃ n, n ≤ ctxC6.retries ∧
      ctxC6.fn ctxC6.fnThis ctxC6.args n = Except.error "Fail!" :=
  execute_error_identity ctxC6 "Fail!" rfl

/-- Claim C7: the receiver and the argument list observed by the wrapped
operation are identical on every attempt: captured once at call time by
`doRetry` and forwarded unchanged to each re-invocation. -/
theorem doRetry_forwards_receiver_args (cfg : WrapConfig ε)
    (fn : JsFun ρ υ ε α) (fnThis : ρ) (args : List υ) :
    (doRetry cfg fn fnThis args).calls.map Prod.snd =
      List.replicate (doRetry cfg fn fnThis args).calls.length
        (fnThis, args) := by
  unfold doRetry
  rw [execute_calls]
  exact executeFrom_calls_frame _ _ 0

/-- Claim C8: throughout every invocation of the wrapped function, the
attempt counter never exceeds `maxRetries`: at every invocation the loop
makes, the recorded counter value is at most `config.maxRetries`. -/
theorem execute_attempt_bound (ctx : Context ρ υ ε α) (c : Nat × ρ × List υ)
    (hc : c ∈ (execute ctx).calls) : c.1 ≤ ctx.retries := by
  rw [execute_calls] at hc
  have := executeFrom_calls_bound ctx ctx.retries 0 c hc
  omega

/-- Witness for C8: the first invocation record of a concrete run has its
counter within the budget. -/
theorem execute_attempt_bound_witness :
    ((0, (), []) : Nat × Unit × List Unit).1 ≤ ctxC8.retries :=
  execute_attempt_bound ctxC8 (0, (), []) (by decide)

/-- Claim C9: calling the wrapper factory with a function in place of the
configuration object fails synchronously with a `TypeError`, before any
wrapping or invocation of the supplied callable occurs. -/
theorem retryify_rejects_function_arg (store : Nat → OptionsObj ε) :
    retryify RetryifyArg.function store =
      Except.error (JsError.typeError
        "options object expected but was passed a function") := rfl

/-- Claim C10: the wrapper factory mutates the caller-supplied options
object in place: the caller's store address now holds the object with
every recognized `undefined`/`null` field overwritten by its default
(`retries = 3`, `initialDelay = 0`, `timeout = 300`, `factor = 2`, no-op
`log`, always-true `shouldRetry`); no copy is made. -/
theorem retryify_normalizes_in_place (store : Nat → OptionsObj ε) (addr : Nat) :
    retryify (RetryifyArg.options addr) store =
      Except.ok
        (fun a => if a = addr then normalizeOptions (store addr) else store a,
         normalizeOptions (store addr)) ∧
    normalizeOptions (store addr) =
      { retries := some (getOpt (store addr).retries 3),
        initialDelay := some (getOpt (store addr).initialDelay 0),
        timeout := some (getOpt (store addr).timeout 300),
        factor := some (getOpt (store addr).factor 2),
        log := some (getOpt (store addr).log (fun _ => ())),
        shouldRetry := some (getOpt (store addr).shouldRetry (fun _ => true)) } :=
  ⟨rfl, rfl⟩

end Retryify
